import Mathlib

/-!
Shallow embedding of the order-management core (El-Mabe/order-management-ms):
the order aggregate (`internal/models/order.go`), the MongoDB store with its
version-gated update (`internal/repositories/mongodb/order.go`), the Redis
cache-aside layer, the Kafka event publisher
(`internal/messages/kafka/producer.go`), and the lifecycle coordinator
(`internal/services/order.go`).

Conventions: Go `time.Time` is modelled as `Nat` (an abstract instant);
Go `float64` money values as `ℚ`; Go `int` as `Int`.  Calls that draw
fresh values from the environment (`time.Now()`, `uuid.New()`) become
explicit parameters.  The syntactic UUID check performed by the external
`github.com/google/uuid` library is abstracted as a boolean predicate
parameter `uuidOK`.
-/

set_option autoImplicit false

namespace OrderMS

/-- `OrderStatus` is a string type in the source (`type OrderStatus string`). -/
abbrev OrderStatus := String

/-- `StatusNew` from `internal/models/order.go`. -/
def StatusNew : OrderStatus := "NEW"

/-- `StatusInProgress` from `internal/models/order.go`. -/
def StatusInProgress : OrderStatus := "IN_PROGRESS"

/-- `StatusDelivered` from `internal/models/order.go`. -/
def StatusDelivered : OrderStatus := "DELIVERED"

/-- `StatusCancelled` from `internal/models/order.go`. -/
def StatusCancelled : OrderStatus := "CANCELLED"

/-- `OrderItem` struct: SKU, quantity (Go `int`), unit price (Go `float64`,
modelled as `ℚ`). -/
structure OrderItem where
  SKU : String
  Quantity : Int
  Price : ℚ
deriving DecidableEq

/-- `Order` struct from `internal/models/order.go`; timestamps are abstract
instants (`Nat`). -/
structure Order where
  ID : String
  CustomerID : String
  Status : OrderStatus
  Items : List OrderItem
  TotalAmount : ℚ
  Version : Int
  CreatedAt : Nat
  UpdatedAt : Nat
deriving DecidableEq

/-- The domain error values declared in `internal/models/order.go`
(`ErrInvalidOrderData`, `ErrInvalidStatusTransition`). -/
inductive DomainErr where
  | invalidOrderData
  | invalidStatusTransition
deriving DecidableEq

/-- `OrderStatus.IsValid`: the switch over the four declared statuses. -/
def OrderStatus.IsValid (s : OrderStatus) : Bool :=
  s = StatusNew || s = StatusInProgress || s = StatusDelivered || s = StatusCancelled

/-- `OrderItem.Subtotal`: `float64(i.Quantity) * i.Price`. -/
def OrderItem.Subtotal (i : OrderItem) : ℚ :=
  (i.Quantity : ℚ) * i.Price

/-- The accumulation loop inside `NewOrder`: walks the items in order,
rejecting the first item with non-positive quantity or price, otherwise
adding its subtotal to the running total. -/
def itemsTotal (acc : ℚ) : List OrderItem → Option ℚ
  | [] => some acc
  | i :: rest =>
      if i.Quantity ≤ 0 || i.Price ≤ 0 then none
      else itemsTotal (acc + i.Subtotal) rest

/-- `NewOrder(customerID, items)` from `internal/models/order.go`.
`uuidOK` stands for the external `uuid.Parse` succeeding, `freshID` for
`uuid.New().String()`, and `now` for `time.Now()`. -/
def NewOrder (uuidOK : String → Bool) (freshID : String) (now : Nat)
    (customerID : String) (items : List OrderItem) : Except DomainErr Order :=
  if customerID = "" then .error .invalidOrderData
  else if items.length = 0 then .error .invalidOrderData
  else if ¬ uuidOK customerID then .error .invalidOrderData
  else
    match itemsTotal 0 items with
    | none => .error .invalidOrderData
    | some totalAmount =>
        .ok { ID := freshID
              CustomerID := customerID
              Status := StatusNew
              Items := items
              TotalAmount := totalAmount
              Version := 1
              CreatedAt := now
              UpdatedAt := now }

/-- `Order.CanTransitionTo`: the switch on the current status; `DELIVERED`
and `CANCELLED` are final, everything else falls through to `false`. -/
def Order.CanTransitionTo (o : Order) (newStatus : OrderStatus) : Bool :=
  if o.Status = StatusNew then
    newStatus = StatusInProgress || newStatus = StatusCancelled
  else if o.Status = StatusInProgress then
    newStatus = StatusDelivered || newStatus = StatusCancelled
  else false

/-- `Order.UpdateStatus` mutates the receiver in Go; here it returns the
error outcome together with the (possibly updated) order.  `now` stands for
`time.Now()`. -/
def Order.UpdateStatus (o : Order) (newStatus : OrderStatus) (now : Nat) :
    Except DomainErr Unit × Order :=
  if ¬ newStatus.IsValid then (.error .invalidOrderData, o)
  else if ¬ o.CanTransitionTo newStatus then (.error .invalidStatusTransition, o)
  else (.ok (), { o with Status := newStatus, UpdatedAt := now, Version := o.Version + 1 })

/-! ### MongoDB store (`internal/repositories/mongodb/order.go`)

Documents are association lists from BSON field names to values; the encoder
follows the `bson:"..."` struct tags on `Order`, the decoder reads each
tagged field back (an absent field decodes to the Go zero value, as the
driver leaves the struct field untouched). -/

/-- A BSON value as it occurs in an order document. -/
inductive BVal where
  | str (s : String)
  | int (n : Int)
  | num (q : ℚ)
  | time (t : Nat)
  | arr (items : List OrderItem)
deriving DecidableEq

/-- A BSON document: ordered field/value pairs. -/
abbrev Doc := List (String × BVal)

/-- Look up the value of field `k` (first occurrence). -/
def getField (d : Doc) (k : String) : Option BVal :=
  (d.find? (fun p => p.1 = k)).map (·.2)

/-- `$set` of a single field: replace the first occurrence of the key, or
append the field if the key is absent. -/
def setField (d : Doc) (k : String) (v : BVal) : Doc :=
  match d with
  | [] => [(k, v)]
  | (k₀, v₀) :: rest => if k₀ = k then (k, v) :: rest else (k₀, v₀) :: setField rest k v

/-- `$set` of several fields in order. -/
def applySet (d : Doc) (sets : List (String × BVal)) : Doc :=
  sets.foldl (fun acc p => setField acc p.1 p.2) d

/-- Decoder helpers: read a field of the expected BSON type, falling back to
the Go zero value when the field is absent or has another type. -/
def getStr (d : Doc) (k : String) : String :=
  match getField d k with
  | some (.str s) => s
  | _ => ""

/-- Read an integer field, defaulting to `0`. -/
def getInt (d : Doc) (k : String) : Int :=
  match getField d k with
  | some (.int n) => n
  | _ => 0

/-- Read a numeric (`float64`) field, defaulting to `0`. -/
def getNum (d : Doc) (k : String) : ℚ :=
  match getField d k with
  | some (.num q) => q
  | _ => 0

/-- Read a time field, defaulting to the zero instant. -/
def getTime (d : Doc) (k : String) : Nat :=
  match getField d k with
  | some (.time t) => t
  | _ => 0

/-- Read an item-array field, defaulting to the empty slice. -/
def getArr (d : Doc) (k : String) : List OrderItem :=
  match getField d k with
  | some (.arr l) => l
  | _ => []

/-- Encoding of an `Order` into its document per the `bson` struct tags:
`_id`, `customerId`, `status`, `items`, `totalAmount`, `version`,
`createdAt`, `updatedAt`. -/
def encodeOrder (o : Order) : Doc :=
  [("_id", .str o.ID),
   ("customerId", .str o.CustomerID),
   ("status", .str o.Status),
   ("items", .arr o.Items),
   ("totalAmount", .num o.TotalAmount),
   ("version", .int o.Version),
   ("createdAt", .time o.CreatedAt),
   ("updatedAt", .time o.UpdatedAt)]

/-- Decoding of a document back into an `Order` per the same `bson` tags. -/
def decodeOrder (d : Doc) : Order :=
  { ID := getStr d "_id"
    CustomerID := getStr d "customerId"
    Status := getStr d "status"
    Items := getArr d "items"
    TotalAmount := getNum d "totalAmount"
    Version := getInt d "version"
    CreatedAt := getTime d "createdAt"
    UpdatedAt := getTime d "updatedAt" }

/-- The `orders` collection: a list of documents. -/
abbrev Coll := List Doc

/-- Does document `d` carry `_id = id`? -/
def hasId (id : String) (d : Doc) : Bool :=
  getField d "_id" = some (.str id)

/-- The update filter of `Update`: `_id = order.ID` and
`version = order.Version - 1`. -/
def updateFilter (o : Order) (d : Doc) : Bool :=
  getField d "_id" = some (.str o.ID) && getField d "version" = some (.int (o.Version - 1))

/-- The `$set` document of `Update`: note the source writes the literal key
`"updated_at"`, not the `bson` tag `"updatedAt"` of the struct field. -/
def updateSetDoc (o : Order) : List (String × BVal) :=
  [("status", .str o.Status), ("updated_at", .time o.UpdatedAt), ("version", .int o.Version)]

/-- `collection.UpdateOne`: applies the `$set` to the first document
matching the filter; returns the matched count (0 or 1) and the new
collection state. -/
def updateOne (coll : Coll) (p : Doc → Bool) (sets : List (String × BVal)) : Nat × Coll :=
  match coll with
  | [] => (0, [])
  | d :: rest =>
      if p d then (1, applySet d sets :: rest)
      else
        let r := updateOne rest p sets
        (r.1, d :: r.2)

/-- `collection.FindOne` with an `_id` filter, as used by
`OrderRepository.FindByID`: the first document with that `_id`. -/
def findDocByID (coll : Coll) (id : String) : Option Doc :=
  coll.find? (hasId id)

/-- The outcome of `OrderRepository.Update`, from the `RepositoryError`
values it builds: success, 404 "order not found", or 409 "version
conflict". -/
inductive RepoResult where
  | ok
  | notFound
  | versionConflict
deriving DecidableEq

/-- `OrderRepository.Update`: conditional write filtered on id and
predecessor version; on zero matched documents, a follow-up `FindByID`
distinguishes `notFound` from `versionConflict`.  The third component
records whether that follow-up existence check ran. -/
def Update (coll : Coll) (o : Order) : RepoResult × Coll × Bool :=
  let r := updateOne coll (updateFilter o) (updateSetDoc o)
  if r.1 = 0 then
    match findDocByID coll o.ID with
    | none => (.notFound, r.2, true)
    | some _ => (.versionConflict, r.2, true)
  else (.ok, r.2, false)

/-! ### Events (`internal/models/event.go`) and the Kafka producer
(`internal/messages/kafka/producer.go`) -/

/-- `EventMetadata` struct. -/
structure EventMetadata where
  ChangedBy : String
  Reason : String
deriving DecidableEq

/-- `OrderEvent` struct. -/
structure OrderEvent where
  EventID : String
  EventType : String
  OrderID : String
  CustomerID : String
  OldStatus : OrderStatus
  NewStatus : OrderStatus
  Timestamp : Nat
  Metadata : EventMetadata
deriving DecidableEq

/-- `EventOrderStatusChanged` constant. -/
def EventOrderStatusChanged : String := "ORDER_STATUS_CHANGED"

/-- `NewOrderStatusChangedEvent`: `eventId` stands for `uuid.New().String()`
and `now` for `time.Now()`. -/
def NewOrderStatusChangedEvent (eventId : String) (now : Nat)
    (orderID customerID : String) (oldStatus newStatus : OrderStatus) : OrderEvent :=
  { EventID := eventId
    EventType := EventOrderStatusChanged
    OrderID := orderID
    CustomerID := customerID
    OldStatus := oldStatus
    NewStatus := newStatus
    Timestamp := now
    Metadata := { ChangedBy := "system", Reason := "status_update" } }

/-- A Kafka header as built in `PublishOrderEvent`. -/
structure KafkaHeader where
  key : String
  value : String
deriving DecidableEq

/-- The Kafka message built in `PublishOrderEvent`; the JSON payload is kept
as the event itself. -/
structure KafkaMessage where
  key : String
  value : OrderEvent
  headers : List KafkaHeader
deriving DecidableEq

/-- The message construction in `PublishOrderEvent`: the partition key is
`event.OrderID`, headers carry the event type and id. -/
def kafkaMessageFor (e : OrderEvent) : KafkaMessage :=
  { key := e.OrderID
    value := e
    headers := [⟨"event-type", e.EventType⟩, ⟨"event-id", e.EventID⟩] }

/-! ### Lifecycle coordinator (`internal/services/order.go`)

The service's collaborators (store, cache, publisher) are interface-typed in
the source; here they are outcome functions bundled in `Collab`, and every
call the service makes is recorded in an effect trace. -/

/-- `repositories.RepositoryError`. -/
structure RepoErr where
  StatusCode : Int
  Cause : String
  Message : String
deriving DecidableEq

/-- `services.ServiceError` (the `Cause []interface{}` slice holds the one
cause string pushed by the service). -/
structure ServiceErr where
  Status : Int
  Message : String
  Cause : String
deriving DecidableEq

/-- The `ServiceError` the service builds from a `RepositoryError`. -/
def svcOfRepo (e : RepoErr) : ServiceErr :=
  { Status := e.StatusCode, Message := e.Message, Cause := e.Cause }

/-- `err.Error()` of the two domain errors. -/
def DomainErr.message : DomainErr → String
  | .invalidOrderData => "invalid order data"
  | .invalidStatusTransition => "invalid status transition"

/-- Outcome of `cacheRepo.GetOrder`: `(order, nil)` hit, `(nil, nil)` miss,
`(nil, err)` cache failure. -/
inductive CacheGetResult where
  | hit (o : Order)
  | miss
  | fail (e : RepoErr)
deriving DecidableEq

/-- The collaborators of the `order` service, as outcome functions: what
each external call would return if made. -/
structure Collab where
  findByID : String → Except RepoErr Order
  update : Order → Option RepoErr
  cacheGet : String → CacheGetResult
  cacheSet : Order → Option RepoErr
  cacheInvalidate : String → Option RepoErr
  publish : OrderEvent → Option String

/-- One external call made by the service. -/
inductive Effect where
  | storeFind (id : String)
  | storeUpdate (o : Order)
  | cacheGet (id : String)
  | cacheSet (o : Order)
  | cacheInvalidate (id : String)
  | publish (e : OrderEvent)
deriving DecidableEq

/-- `GetOrderByID`: cache first; a hit returns immediately; a miss or a
cache failure falls through to the store; on store success the result is
cached best-effort (the `SetOrder` outcome is only logged) and returned. -/
def GetOrderByID (c : Collab) (orderID : String) :
    Except ServiceErr Order × List Effect :=
  match c.cacheGet orderID with
  | .hit o => (.ok o, [.cacheGet orderID])
  | .miss =>
      match c.findByID orderID with
      | .error e => (.error (svcOfRepo e), [.cacheGet orderID, .storeFind orderID])
      | .ok o =>
          let _setOutcome := c.cacheSet o
          (.ok o, [.cacheGet orderID, .storeFind orderID, .cacheSet o])
  | .fail _ =>
      match c.findByID orderID with
      | .error e => (.error (svcOfRepo e), [.cacheGet orderID, .storeFind orderID])
      | .ok o =>
          let _setOutcome := c.cacheSet o
          (.ok o, [.cacheGet orderID, .storeFind orderID, .cacheSet o])

/-- `UpdateOrderStatus`: find the order, transition it in the domain,
persist via the version-gated update; only then invalidate the cache and
publish the status-changed event, both best-effort (their outcomes are
only logged).  `now` stands for `time.Now()` and `eventId` for the fresh
`uuid.New().String()` of the event. -/
def UpdateOrderStatus (c : Collab) (now : Nat) (eventId : String)
    (orderID : String) (newStatus : OrderStatus) :
    Except ServiceErr Order × List Effect :=
  match c.findByID orderID with
  | .error e => (.error (svcOfRepo e), [.storeFind orderID])
  | .ok ord =>
      let oldStatus := ord.Status
      let r := ord.UpdateStatus newStatus now
      match r.1 with
      | .error e =>
          (.error { Status := 400, Message := "Invalid status transition",
                    Cause := e.message },
           [.storeFind orderID])
      | .ok _ =>
          let ord' := r.2
          match c.update ord' with
          | some e => (.error (svcOfRepo e), [.storeFind orderID, .storeUpdate ord'])
          | none =>
              let _invOutcome := c.cacheInvalidate orderID
              let ev := NewOrderStatusChangedEvent eventId now ord'.ID ord'.CustomerID
                          oldStatus newStatus
              let _pubOutcome := c.publish ev
              (.ok ord',
               [.storeFind orderID, .storeUpdate ord', .cacheInvalidate orderID, .publish ev])

/-- The events published along a trace. -/
def publishedEvents (tr : List Effect) : List OrderEvent :=
  tr.filterMap (fun e => match e with | .publish ev => some ev | _ => none)

/-- The cache invalidations performed along a trace. -/
def invalidations (tr : List Effect) : List String :=
  tr.filterMap (fun e => match e with | .cacheInvalidate id => some id | _ => none)

/-- The store reads performed along a trace. -/
def storeFinds (tr : List Effect) : List String :=
  tr.filterMap (fun e => match e with | .storeFind id => some id | _ => none)

/-- The store writes performed along a trace. -/
def storeUpdates (tr : List Effect) : List Order :=
  tr.filterMap (fun e => match e with | .storeUpdate o => some o | _ => none)

/-- The cache write-backs performed along a trace. -/
def cacheSets (tr : List Effect) : List Order :=
  tr.filterMap (fun e => match e with | .cacheSet o => some o | _ => none)

/-! ### Concrete fixtures used by witnesses and counterexamples -/

/-- The four declared statuses. -/
def statusList : List OrderStatus :=
  [StatusNew, StatusInProgress, StatusDelivered, StatusCancelled]

/-- The legal transition pairs named by the state machine. -/
def legalTransitions : List (OrderStatus × OrderStatus) :=
  [(StatusNew, StatusInProgress), (StatusNew, StatusCancelled),
   (StatusInProgress, StatusDelivered), (StatusInProgress, StatusCancelled)]

/-- A line item (Scenario A of the spec). -/
def itemLaptop : OrderItem := { SKU := "LAPTOP-001", Quantity := 2, Price := 99999/100 }

/-- A line item (Scenario A of the spec). -/
def itemMouse : OrderItem := { SKU := "MOUSE-002", Quantity := 1, Price := 2999/100 }

/-- A line item with a whole-number price (keeps concrete evaluation easy). -/
def itemBook : OrderItem := { SKU := "BOOK-003", Quantity := 3, Price := 10 }

/-- A stored order at version 1, status NEW. -/
def ordBase : Order :=
  { ID := "o1", CustomerID := "c1", Status := StatusNew, Items := [itemBook],
    TotalAmount := 30, Version := 1, CreatedAt := 5, UpdatedAt := 5 }

/-- `ordBase` after the NEW → IN_PROGRESS transition at instant 9. -/
def ordNext : Order :=
  { ordBase with Status := StatusInProgress, Version := 2, UpdatedAt := 9 }

/-- `ordBase` after a competing NEW → CANCELLED transition at instant 11. -/
def ordNextB : Order :=
  { ordBase with Status := StatusCancelled, Version := 2, UpdatedAt := 11 }

/-- A collection holding exactly the encoded `ordBase`. -/
def collBase : Coll := [encodeOrder ordBase]

/-- The 404 repository error of `FindByID` / `Update`. -/
def errNF : RepoErr := { StatusCode := 404, Cause := "order not found", Message := "Order not found" }

/-- The 409 repository error of `Update`. -/
def errVC : RepoErr :=
  { StatusCode := 409, Cause := "version conflict",
    Message := "Order was modified by another process" }

/-- Collaborators for which every call succeeds (store find returns
`ordBase`, cache misses). -/
def collabA : Collab :=
  { findByID := fun _ => .ok ordBase
    update := fun _ => none
    cacheGet := fun _ => .miss
    cacheSet := fun _ => none
    cacheInvalidate := fun _ => none
    publish := fun _ => none }

/-- Collaborators whose store find fails with 404. -/
def collabFindFail : Collab := { collabA with findByID := fun _ => .error errNF }

/-- Collaborators whose store update reports a version conflict. -/
def collabUpdateConflict : Collab := { collabA with update := fun _ => some errVC }

/-- Collaborators whose cache holds `ordBase`. -/
def collabCacheHit : Collab := { collabA with cacheGet := fun _ => .hit ordBase }

/-- Collaborators whose cache read fails and whose cache write-back also
fails. -/
def collabCacheFail : Collab :=
  { collabA with cacheGet := fun _ => .fail errNF, cacheSet := fun _ => some errNF }

/-- Collaborators for which the post-commit side effects (cache
invalidation, event publication) both fail. -/
def collabSideFail : Collab :=
  { collabA with cacheInvalidate := fun _ => some errNF, publish := fun _ => some "kafka down" }

/-- `ordBase` already delivered (a terminal state). -/
def ordDelivered : Order := { ordBase with Status := StatusDelivered }

/-! ## Theorems -/

/-- The accumulation loop succeeds on all-valid items and returns the
running total plus the sum of subtotals. -/
theorem itemsTotal_of_valid (items : List OrderItem) (acc : ℚ)
    (h : ∀ i ∈ items, 0 < i.Quantity ∧ 0 < i.Price) :
    itemsTotal acc items =
      some (acc + (items.map (fun i => (i.Quantity : ℚ) * i.Price)).sum) := by
  induction items generalizing acc with
  | nil => simp [itemsTotal]
  | cons i rest ih =>
      obtain ⟨hq, hp⟩ := h i (List.mem_cons_self _ _)
      have hrest : ∀ j ∈ rest, 0 < j.Quantity ∧ 0 < j.Price :=
        fun j hj => h j (List.mem_cons_of_mem _ hj)
      simp only [itemsTotal]
      rw [if_neg, ih _ hrest]
      · simp only [List.map_cons, List.sum_cons, OrderItem.Subtotal]
        congr 1
        ring
      · simp only [Bool.or_eq_true, decide_eq_true_eq, not_or, not_le]
        exact ⟨hq, hp⟩

/-- The accumulation loop fails exactly when some item has non-positive
quantity or price. -/
theorem itemsTotal_eq_none_iff (items : List OrderItem) (acc : ℚ) :
    itemsTotal acc items = none ↔ ∃ i ∈ items, i.Quantity ≤ 0 ∨ i.Price ≤ 0 := by
  induction items generalizing acc with
  | nil => simp [itemsTotal]
  | cons i rest ih =>
      simp only [itemsTotal]
      rcases Decidable.em (i.Quantity ≤ 0 ∨ i.Price ≤ 0) with hbad | hgood
      · rw [if_pos (by simpa using hbad)]
        exact iff_of_true rfl ⟨i, List.mem_cons_self _ _, hbad⟩
      · rw [if_neg (by simpa using hgood), ih]
        constructor
        · rintro ⟨j, hj, hPj⟩
          exact ⟨j, List.mem_cons_of_mem _ hj, hPj⟩
        · rintro ⟨j, hj, hPj⟩
          rcases List.mem_cons.mp hj with rfl | hj
          · exact absurd hPj hgood
          · exact ⟨j, hj, hPj⟩

/-- `NewOrder` on an input passing every validation: the constructed order,
field by field. -/
theorem newOrder_ok_of_valid (u : String → Bool) (f : String) (now : Nat)
    (cid : String) (items : List OrderItem)
    (hcid : cid ≠ "") (hu : u cid = true) (hne : items ≠ [])
    (hitems : ∀ i ∈ items, 0 < i.Quantity ∧ 0 < i.Price) :
    NewOrder u f now cid items =
      .ok { ID := f, CustomerID := cid, Status := StatusNew, Items := items,
            TotalAmount := (items.map (fun i => (i.Quantity : ℚ) * i.Price)).sum,
            Version := 1, CreatedAt := now, UpdatedAt := now } := by
  unfold NewOrder
  rw [if_neg hcid, if_neg (by simpa [List.length_eq_zero] using hne),
      if_neg (not_not_intro hu), itemsTotal_of_valid items 0 hitems]
  simp

/-- `NewOrder` on an input failing some validation returns
`ErrInvalidOrderData`. -/
theorem newOrder_error_of_invalid (u : String → Bool) (f : String) (now : Nat)
    (cid : String) (items : List OrderItem)
    (h : cid = "" ∨ u cid = false ∨ items = [] ∨
         ∃ i ∈ items, i.Quantity ≤ 0 ∨ i.Price ≤ 0) :
    NewOrder u f now cid items = .error .invalidOrderData := by
  unfold NewOrder
  by_cases h1 : cid = ""
  · rw [if_pos h1]
  rw [if_neg h1]
  by_cases h2 : items.length = 0
  · rw [if_pos h2]
  rw [if_neg h2]
  by_cases h3 : u cid = true
  · rw [if_neg (not_not_intro h3)]
    have hbad : ∃ i ∈ items, i.Quantity ≤ 0 ∨ i.Price ≤ 0 := by
      rcases h with h | h | h | h
      · exact absurd h h1
      · rw [h3] at h
        exact absurd h (by simp)
      · exact absurd (by simp [h]) h2
      · exact h
    rw [(itemsTotal_eq_none_iff items 0).mpr hbad]
  · rw [if_pos h3]

/-- C5: for every valid pair (customerID, items) — customerID a
syntactically valid UUID, items non-empty with every quantity and price
strictly positive — create returns an order with version 1, status NEW,
totalAmount the sum over the items of quantity × price, the given
customerID and items stored unchanged, and creation and last-update
timestamps both set to the creation instant. -/
theorem newOrder_valid_construction (u : String → Bool) (f : String) (now : Nat)
    (cid : String) (items : List OrderItem)
    (hcid : cid ≠ "") (hu : u cid = true) (hne : items ≠ [])
    (hitems : ∀ i ∈ items, 0 < i.Quantity ∧ 0 < i.Price) :
    ∃ o, NewOrder u f now cid items = .ok o ∧
      o.Version = 1 ∧ o.Status = StatusNew ∧
      o.TotalAmount = (items.map (fun i => (i.Quantity : ℚ) * i.Price)).sum ∧
      o.CustomerID = cid ∧ o.Items = items ∧
      o.CreatedAt = now ∧ o.UpdatedAt = now := by
  exact ⟨_, newOrder_ok_of_valid u f now cid items hcid hu hne hitems,
         rfl, rfl, rfl, rfl, rfl, rfl, rfl⟩

/-- Witness for C5: Scenario A's input, evaluated concretely. -/
theorem newOrder_valid_construction_witness :
    "123e4567-e89b-12d3-a456-426614174000" ≠ "" ∧
    ([itemLaptop, itemMouse] : List OrderItem) ≠ [] ∧
    (∀ i ∈ [itemLaptop, itemMouse], 0 < i.Quantity ∧ 0 < i.Price) ∧
    ∃ o, NewOrder (fun s => s = "123e4567-e89b-12d3-a456-426614174000") "oid-1" 7
           "123e4567-e89b-12d3-a456-426614174000" [itemLaptop, itemMouse] = .ok o ∧
      o.Version = 1 ∧ o.Status = StatusNew ∧
      o.TotalAmount = ([itemLaptop, itemMouse].map (fun i => (i.Quantity : ℚ) * i.Price)).sum ∧
      o.CustomerID = "123e4567-e89b-12d3-a456-426614174000" ∧
      o.Items = [itemLaptop, itemMouse] ∧ o.CreatedAt = 7 ∧ o.UpdatedAt = 7 :=
  ⟨by decide, by decide, by norm_num [itemLaptop, itemMouse, List.forall_mem_cons],
   newOrder_valid_construction _ _ 7 _ _ (by decide) (by decide) (by decide)
     (by norm_num [itemLaptop, itemMouse, List.forall_mem_cons])⟩

/-- C6: create returns the InvalidData error, and no order, exactly when the
input is invalid — customerID empty, customerID not a valid UUID, items
empty, or some item with non-positive quantity or price — and succeeds on
every other input. -/
theorem newOrder_invalidData_iff (u : String → Bool) (f : String) (now : Nat)
    (cid : String) (items : List OrderItem) :
    (NewOrder u f now cid items = .error .invalidOrderData ↔
      (cid = "" ∨ u cid = false ∨ items = [] ∨
        ∃ i ∈ items, i.Quantity ≤ 0 ∨ i.Price ≤ 0))
    ∧ ((∃ o, NewOrder u f now cid items = .ok o) ↔
      ¬(cid = "" ∨ u cid = false ∨ items = [] ∨
        ∃ i ∈ items, i.Quantity ≤ 0 ∨ i.Price ≤ 0)) := by
  by_cases hcond : cid = "" ∨ u cid = false ∨ items = [] ∨
      ∃ i ∈ items, i.Quantity ≤ 0 ∨ i.Price ≤ 0
  · have herr := newOrder_error_of_invalid u f now cid items hcond
    refine ⟨iff_of_true herr hcond, iff_of_false ?_ (not_not_intro hcond)⟩
    rintro ⟨o, ho⟩
    rw [herr] at ho
    exact Except.noConfusion ho
  · have hcond0 := hcond
    push_neg at hcond
    obtain ⟨h1, h2, h3, h4⟩ := hcond
    have hu : u cid = true := by
      revert h2
      cases u cid <;> simp
    have hitems : ∀ i ∈ items, 0 < i.Quantity ∧ 0 < i.Price := h4
    have hok := newOrder_ok_of_valid u f now cid items h1 hu h3 hitems
    refine ⟨iff_of_false ?_ hcond0, iff_of_true ⟨_, hok⟩ hcond0⟩
    rw [hok]
    exact fun h => Except.noConfusion h

/-- C7: over the four declared statuses, `CanTransitionTo` is true exactly
for NEW→IN_PROGRESS, NEW→CANCELLED, IN_PROGRESS→DELIVERED and
IN_PROGRESS→CANCELLED; it is false for every pair out of DELIVERED or
CANCELLED, for every pair into NEW, and for every self-transition. -/
theorem canTransitionTo_exact (o : Order) (hs : o.Status ∈ statusList)
    (t : OrderStatus) (ht : t ∈ statusList) :
    (o.CanTransitionTo t = true ↔ (o.Status, t) ∈ legalTransitions)
    ∧ ((o.Status = StatusDelivered ∨ o.Status = StatusCancelled) →
        o.CanTransitionTo t = false)
    ∧ (t = StatusNew → o.CanTransitionTo t = false)
    ∧ (t = o.Status → o.CanTransitionTo t = false) := by
  simp only [statusList, List.mem_cons, List.not_mem_nil, or_false] at hs ht
  rcases hs with hs | hs | hs | hs <;> rcases ht with rfl | rfl | rfl | rfl <;>
    simp_all [Order.CanTransitionTo, legalTransitions, StatusNew, StatusInProgress,
      StatusDelivered, StatusCancelled]

/-- Witness for C7: the IN_PROGRESS → DELIVERED pair on a concrete order. -/
theorem canTransitionTo_exact_witness :
    ({ ordBase with Status := StatusInProgress } : Order).Status ∈ statusList ∧
    StatusDelivered ∈ statusList ∧
    (({ ordBase with Status := StatusInProgress } : Order).CanTransitionTo StatusDelivered = true ↔
      (({ ordBase with Status := StatusInProgress } : Order).Status, StatusDelivered) ∈
        legalTransitions) :=
  ⟨by decide, by decide,
   (canTransitionTo_exact { ordBase with Status := StatusInProgress } (by decide)
      StatusDelivered (by decide)).1⟩

/-- C10: whenever the aggregate transition returns an error, the in-memory
order is completely unchanged — in particular status, version and update
timestamp keep their prior values. -/
theorem updateStatus_error_frame (o : Order) (ns : OrderStatus) (now : Nat)
    (e : DomainErr) (h : (o.UpdateStatus ns now).1 = .error e) :
    (o.UpdateStatus ns now).2 = o
    ∧ (o.UpdateStatus ns now).2.Status = o.Status
    ∧ (o.UpdateStatus ns now).2.Version = o.Version
    ∧ (o.UpdateStatus ns now).2.UpdatedAt = o.UpdatedAt := by
  unfold Order.UpdateStatus at h ⊢
  split_ifs at h ⊢ <;> simp_all

/-- Witness for C10: Scenario C — a DELIVERED order asked to move back to
IN_PROGRESS is rejected and left untouched. -/
theorem updateStatus_error_frame_witness :
    (ordDelivered.UpdateStatus StatusInProgress 9).1 =
        (.error .invalidStatusTransition : Except DomainErr Unit) ∧
    ((ordDelivered.UpdateStatus StatusInProgress 9).2 = ordDelivered
     ∧ (ordDelivered.UpdateStatus StatusInProgress 9).2.Status = ordDelivered.Status
     ∧ (ordDelivered.UpdateStatus StatusInProgress 9).2.Version = ordDelivered.Version
     ∧ (ordDelivered.UpdateStatus StatusInProgress 9).2.UpdatedAt = ordDelivered.UpdatedAt) :=
  ⟨by rfl,
   updateStatus_error_frame ordDelivered StatusInProgress 9 .invalidStatusTransition (by rfl)⟩

/-! ### Store lemmas -/

/-- `Update` unfolded (the let binding zeta-reduced). -/
theorem Update_eq (coll : Coll) (o : Order) :
    Update coll o =
      (if (updateOne coll (updateFilter o) (updateSetDoc o)).1 = 0 then
         match findDocByID coll o.ID with
         | none => (RepoResult.notFound, (updateOne coll (updateFilter o) (updateSetDoc o)).2, true)
         | some _ =>
             (RepoResult.versionConflict, (updateOne coll (updateFilter o) (updateSetDoc o)).2, true)
       else (RepoResult.ok, (updateOne coll (updateFilter o) (updateSetDoc o)).2, false)) := rfl

/-- `updateOne` matches zero documents exactly when no document satisfies
the filter. -/
theorem updateOne_fst_eq_zero_iff (p : Doc → Bool) (s : List (String × BVal)) (coll : Coll) :
    (updateOne coll p s).1 = 0 ↔ ∀ d ∈ coll, p d = false := by
  induction coll with
  | nil => simp [updateOne]
  | cons d rest ih =>
      by_cases hp : p d = true
      · simp [updateOne, hp]
      · have hp₀ : p d = false := by
          revert hp
          cases p d <;> simp
        simp [updateOne, hp₀, ih]

/-- `updateOne` matches some document exactly when one satisfies the
filter. -/
theorem updateOne_fst_ne_zero_iff (p : Doc → Bool) (s : List (String × BVal)) (coll : Coll) :
    (updateOne coll p s).1 ≠ 0 ↔ ∃ d ∈ coll, p d = true := by
  rw [Ne, updateOne_fst_eq_zero_iff]
  constructor
  · intro h
    by_contra hno
    push_neg at hno
    refine h (fun d hd => ?_)
    have hne := hno d hd
    revert hne
    cases p d <;> simp
  · rintro ⟨d, hd, hpd⟩ hall
    rw [hall d hd] at hpd
    exact Bool.noConfusion hpd

/-- A zero-match `updateOne` leaves the collection unchanged. -/
theorem updateOne_snd_of_fst_eq_zero (p : Doc → Bool) (s : List (String × BVal)) (coll : Coll)
    (h : (updateOne coll p s).1 = 0) : (updateOne coll p s).2 = coll := by
  induction coll with
  | nil => rfl
  | cons d rest ih =>
      by_cases hp : p d = true
      · simp [updateOne, hp] at h
      · have hp₀ : p d = false := by
          revert hp
          cases p d <;> simp
        simp only [updateOne, hp₀, Bool.false_eq_true, if_false] at h ⊢
        rw [ih h]

/-- `updateOne` on a matching head replaces it by the `$set` result. -/
theorem updateOne_cons_of_match (d : Doc) (rest : Coll) (p : Doc → Bool)
    (s : List (String × BVal)) (h : p d = true) :
    updateOne (d :: rest) p s = (1, applySet d s :: rest) := by
  simp [updateOne, h]

/-- `updateOne` skips a non-matching head. -/
theorem updateOne_cons_of_no_match (d : Doc) (rest : Coll) (p : Doc → Bool)
    (s : List (String × BVal)) (h : p d = false) :
    updateOne (d :: rest) p s = ((updateOne rest p s).1, d :: (updateOne rest p s).2) := by
  simp [updateOne, h]

/-- Reading back the field just `$set`. -/
theorem getField_setField_self (d : Doc) (k : String) (v : BVal) :
    getField (setField d k v) k = some v := by
  induction d with
  | nil => simp [setField, getField]
  | cons p rest ih =>
      obtain ⟨k₀, v₀⟩ := p
      by_cases hk : k₀ = k
      · simp [setField, hk, getField]
      · simp only [setField, hk, if_false]
        simpa [getField, List.find?_cons, hk] using ih

/-- `$set` of one field leaves every other field unchanged. -/
theorem getField_setField_of_ne (d : Doc) (k k₂ : String) (v : BVal) (h : k₂ ≠ k) :
    getField (setField d k v) k₂ = getField d k₂ := by
  have h' : ¬ (k = k₂) := fun hh => h hh.symm
  induction d with
  | nil => simp [setField, getField, h']
  | cons p rest ih =>
      obtain ⟨k₀, v₀⟩ := p
      by_cases hk : k₀ = k
      · subst hk
        simp [setField, getField, List.find?_cons, h']
      · simp only [setField, hk, if_false]
        by_cases hk₂ : k₀ = k₂
        · simp [getField, List.find?_cons, hk₂]
        · simpa [getField, List.find?_cons, hk₂] using ih

/-- The `$set` document of `Update`, field by field. -/
theorem applySet_updateSetDoc (d : Doc) (o : Order) :
    applySet d (updateSetDoc o) =
      setField (setField (setField d "status" (.str o.Status))
        "updated_at" (.time o.UpdatedAt)) "version" (.int o.Version) := rfl

/-- After `Update`'s `$set`, the document's `version` field holds the
order's (already incremented) version. -/
theorem getField_afterSet_version (d : Doc) (o : Order) :
    getField (applySet d (updateSetDoc o)) "version" = some (.int o.Version) := by
  rw [applySet_updateSetDoc]
  exact getField_setField_self _ _ _

/-- `Update`'s `$set` does not touch the `_id` field. -/
theorem getField_afterSet_id (d : Doc) (o : Order) :
    getField (applySet d (updateSetDoc o)) "_id" = getField d "_id" := by
  rw [applySet_updateSetDoc,
      getField_setField_of_ne _ _ _ _ (by decide),
      getField_setField_of_ne _ _ _ _ (by decide),
      getField_setField_of_ne _ _ _ _ (by decide)]

/-- C1: the conditional write succeeds exactly when some stored record has
the order's identifier and version `order.Version - 1`; on zero matches it
returns NotFound when no record with that identifier exists and
VersionConflict when one exists with a different version; the existence
re-check runs exactly on the zero-match path. -/
theorem update_versionGated_write (coll : Coll) (o : Order) :
    ((Update coll o).1 = .ok ↔
      ∃ d ∈ coll, getField d "_id" = some (.str o.ID) ∧
        getField d "version" = some (.int (o.Version - 1)))
    ∧ ((Update coll o).1 = .notFound ↔
      ¬ ∃ d ∈ coll, getField d "_id" = some (.str o.ID))
    ∧ ((Update coll o).1 = .versionConflict ↔
      ((∃ d ∈ coll, getField d "_id" = some (.str o.ID)) ∧
        ¬ ∃ d ∈ coll, getField d "_id" = some (.str o.ID) ∧
          getField d "version" = some (.int (o.Version - 1))))
    ∧ ((Update coll o).2.2 = true ↔
      ¬ ∃ d ∈ coll, getField d "_id" = some (.str o.ID) ∧
        getField d "version" = some (.int (o.Version - 1))) := by
  have hfilter : ∀ d : Doc, updateFilter o d = true ↔
      (getField d "_id" = some (.str o.ID) ∧
        getField d "version" = some (.int (o.Version - 1))) := by
    intro d
    simp [updateFilter]
  have hhas : ∀ d : Doc, hasId o.ID d = true ↔ getField d "_id" = some (.str o.ID) := by
    intro d
    simp [hasId]
  rw [Update_eq]
  by_cases hm : (updateOne coll (updateFilter o) (updateSetDoc o)).1 = 0
  · have hall : ∀ d ∈ coll, updateFilter o d = false :=
      (updateOne_fst_eq_zero_iff _ _ _).mp hm
    have hnofull : ¬ ∃ d ∈ coll, getField d "_id" = some (.str o.ID) ∧
        getField d "version" = some (.int (o.Version - 1)) := by
      rintro ⟨d, hd, hprop⟩
      have h₁ := (hfilter d).mpr hprop
      rw [hall d hd] at h₁
      exact Bool.noConfusion h₁
    rw [if_pos hm]
    cases hfind : findDocByID coll o.ID with
    | none =>
        have hnoid : ¬ ∃ d ∈ coll, getField d "_id" = some (.str o.ID) := by
          rintro ⟨d, hd, hid⟩
          have := List.find?_eq_none.mp hfind d hd
          exact this ((hhas d).mpr hid)
        exact ⟨iff_of_false (by simp) hnofull,
               iff_of_true rfl hnoid,
               iff_of_false (by simp) (fun h => hnoid h.1),
               iff_of_true rfl hnofull⟩
    | some d =>
        have hd : d ∈ coll := List.mem_of_find?_eq_some hfind
        have hid : getField d "_id" = some (.str o.ID) :=
          (hhas d).mp (List.find?_some hfind)
        exact ⟨iff_of_false (by simp) hnofull,
               iff_of_false (by simp) (not_not_intro ⟨d, hd, hid⟩),
               iff_of_true rfl ⟨⟨d, hd, hid⟩, hnofull⟩,
               iff_of_true rfl hnofull⟩
  · obtain ⟨d, hd, hpd⟩ := (updateOne_fst_ne_zero_iff _ _ _).mp hm
    have hfull : ∃ d ∈ coll, getField d "_id" = some (.str o.ID) ∧
        getField d "version" = some (.int (o.Version - 1)) :=
      ⟨d, hd, (hfilter d).mp hpd⟩
    rw [if_neg hm]
    exact ⟨iff_of_true rfl hfull,
           iff_of_false (by simp)
             (not_not_intro ⟨d, hd, ((hfilter d).mp hpd).1⟩),
           iff_of_false (by simp) (fun h => h.2 hfull),
           iff_of_false (by simp) (not_not_intro hfull)⟩

/-- `Update` ignores a leading document that carries neither the order's
identifier (hence cannot match the filter or the existence re-check). -/
theorem Update_cons_skip (d : Doc) (rest : Coll) (o : Order)
    (hfd : updateFilter o d = false) (hid : hasId o.ID d = false) :
    Update (d :: rest) o =
      ((Update rest o).1, d :: (Update rest o).2.1, (Update rest o).2.2) := by
  rw [Update_eq, Update_eq, updateOne_cons_of_no_match _ _ _ _ hfd]
  have hfind : findDocByID (d :: rest) o.ID = findDocByID rest o.ID := by
    simp [findDocByID, List.find?_cons, hid]
  by_cases hm : (updateOne rest (updateFilter o) (updateSetDoc o)).1 = 0
  · rw [if_pos hm, if_pos hm, hfind]
    cases findDocByID rest o.ID <;> simp
  · rw [if_neg hm, if_neg hm]

/-- C2: two updates both built from base version N (each carrying version
N + 1) against a collection holding exactly one record with the identifier,
at version N.  Concurrency is modelled by the two atomic conditional writes
executing one after the other, in either order (the statement is symmetric
in which update runs first): the first one succeeds, the second receives
VersionConflict and leaves the store untouched, and afterwards the stored
version is N + 1. -/
theorem update_concurrent_exactly_one_wins (o₁ o₂ : Order) (id : String) (N : Int)
    (h₁ : o₁.ID = id) (h₂ : o₂.ID = id)
    (hv₁ : o₁.Version = N + 1) (hv₂ : o₂.Version = N + 1) :
    ∀ coll : Coll, coll.countP (hasId id) = 1 →
      (∀ d ∈ coll, hasId id d = true → getField d "version" = some (.int N)) →
      (Update coll o₁).1 = .ok ∧
      (Update (Update coll o₁).2.1 o₂).1 = .versionConflict ∧
      (Update (Update coll o₁).2.1 o₂).2.1 = (Update coll o₁).2.1 ∧
      ∃ d, findDocByID (Update (Update coll o₁).2.1 o₂).2.1 id = some d ∧
        getField d "version" = some (.int (N + 1)) := by
  intro coll
  induction coll with
  | nil =>
      intro hcount _
      rw [List.countP_nil] at hcount
      exact absurd hcount (by decide)
  | cons d rest ih =>
      intro hcount hver
      by_cases hd : hasId id d = true
      · have hrest0 : ∀ e ∈ rest, hasId id e = false := by
          simp [List.countP_cons, hd] at hcount
          exact hcount
        have hidd : getField d "_id" = some (.str id) := by
          simpa [hasId] using hd
        have hverd : getField d "version" = some (.int N) :=
          hver d (List.mem_cons_self _ _) hd
        have hv₁' : o₁.Version - 1 = N := by omega
        have hfd₁ : updateFilter o₁ d = true := by
          simp [updateFilter, h₁, hidd, hverd, hv₁']
        have hrun₁ : Update (d :: rest) o₁ =
            (.ok, applySet d (updateSetDoc o₁) :: rest, false) := by
          rw [Update_eq, updateOne_cons_of_match _ _ _ _ hfd₁]
          simp
        have hvd' : getField (applySet d (updateSetDoc o₁)) "version" =
            some (.int (N + 1)) := by
          rw [getField_afterSet_version, hv₁]
        have hidd' : getField (applySet d (updateSetDoc o₁)) "_id" = some (.str id) := by
          rw [getField_afterSet_id, hidd]
        have hhd' : hasId id (applySet d (updateSetDoc o₁)) = true := by
          simp [hasId, hidd']
        have harith : ¬ (N + 1 = o₂.Version - 1) := by omega
        have hfd₂ : updateFilter o₂ (applySet d (updateSetDoc o₁)) = false := by
          simp [updateFilter, hvd', harith]
        have hfrest : ∀ e ∈ rest, updateFilter o₂ e = false := by
          intro e he
          have hno := hrest0 e he
          simp [hasId] at hno
          simp [updateFilter, h₂, hno]
        have hm₂ : (updateOne (applySet d (updateSetDoc o₁) :: rest)
            (updateFilter o₂) (updateSetDoc o₂)).1 = 0 :=
          (updateOne_fst_eq_zero_iff _ _ _).mpr
            (List.forall_mem_cons.mpr ⟨hfd₂, hfrest⟩)
        have hstate₂ := updateOne_snd_of_fst_eq_zero
          (updateFilter o₂) (updateSetDoc o₂) (applySet d (updateSetDoc o₁) :: rest) hm₂
        have hfind₂ : findDocByID (applySet d (updateSetDoc o₁) :: rest) o₂.ID =
            some (applySet d (updateSetDoc o₁)) := by
          rw [h₂]
          simp [findDocByID, List.find?_cons, hhd']
        have hrun₂ : Update (applySet d (updateSetDoc o₁) :: rest) o₂ =
            (.versionConflict, applySet d (updateSetDoc o₁) :: rest, true) := by
          rw [Update_eq, if_pos hm₂, hfind₂, hstate₂]
        refine ⟨by rw [hrun₁], ?_, ?_, ?_⟩
        · rw [hrun₁]
          simp only
          rw [hrun₂]
        · rw [hrun₁]
          simp only
          rw [hrun₂]
        · rw [hrun₁]
          simp only
          rw [hrun₂]
          exact ⟨applySet d (updateSetDoc o₁), by simp [findDocByID, List.find?_cons, hhd'], hvd'⟩
      · rw [Bool.not_eq_true] at hd
        have hcount' : rest.countP (hasId id) = 1 := by
          simp [List.countP_cons, hd] at hcount
          exact hcount
        have hver' : ∀ e ∈ rest, hasId id e = true → getField e "version" = some (.int N) :=
          fun e he => hver e (List.mem_cons_of_mem _ he)
        obtain ⟨c₁, c₂, c₃, dfin, hdfin, hdver⟩ := ih hcount' hver'
        have hnoid : ¬ (getField d "_id" = some (.str id)) := by
          simpa [hasId] using hd
        have hfd₁ : updateFilter o₁ d = false := by
          simp [updateFilter, h₁, hnoid]
        have hfd₂ : updateFilter o₂ d = false := by
          simp [updateFilter, h₂, hnoid]
        have hid₁ : hasId o₁.ID d = false := by
          rw [h₁]
          exact hd
        have hid₂ : hasId o₂.ID d = false := by
          rw [h₂]
          exact hd
        have hskip₁ := Update_cons_skip d rest o₁ hfd₁ hid₁
        rw [hskip₁]
        simp only
        rw [Update_cons_skip d ((Update rest o₁).2.1) o₂ hfd₂ hid₂]
        refine ⟨c₁, c₂, by rw [c₃], dfin, ?_, hdver⟩
        simpa [findDocByID, List.find?_cons, hd] using hdfin

/-- Witness for C2: the concrete one-record collection `collBase` at
version 1, updated by the two competing version-2 writes. -/
theorem update_concurrent_exactly_one_wins_witness :
    ordNext.ID = "o1" ∧ ordNextB.ID = "o1" ∧
    ordNext.Version = 1 + 1 ∧ ordNextB.Version = 1 + 1 ∧
    collBase.countP (hasId "o1") = 1 ∧
    (Update collBase ordNext).1 = .ok ∧
    (Update (Update collBase ordNext).2.1 ordNextB).1 = .versionConflict ∧
    ∃ d, findDocByID (Update (Update collBase ordNext).2.1 ordNextB).2.1 "o1" = some d ∧
      getField d "version" = some (.int (1 + 1)) := by
  have h := update_concurrent_exactly_one_wins ordNext ordNextB "o1" 1
    (by decide) (by decide) (by decide) (by decide) collBase (by decide)
    (by decide)
  exact ⟨by decide, by decide, by decide, by decide, by decide, h.1, h.2.1, h.2.2.2⟩

/-- C4 evaluated at the failing input: a successful `Update` writes the new
status and version into the stored record and leaves identifier,
customerID, items, totalAmount and createdAt unchanged, but because the
`$set` uses the key `"updated_at"` while the record's field (per the `bson`
tag) is `"updatedAt"`, the refreshed update timestamp is NOT persisted:
the read-back record still carries the old `updatedAt` while a stray
`updated_at` field holds the new one. -/
theorem update_updatedAt_not_persisted :
    (Update collBase ordNext).1 = .ok ∧
    ordNext.UpdatedAt = 9 ∧ ordBase.UpdatedAt = 5 ∧
    ∃ d, findDocByID (Update collBase ordNext).2.1 "o1" = some d ∧
      decodeOrder d = { ordBase with Status := StatusInProgress, Version := 2 } ∧
      (decodeOrder d).UpdatedAt = 5 ∧
      getField d "updated_at" = some (.time 9) ∧
      getField d "updatedAt" = some (.time 5) := by
  refine ⟨by decide, by decide, by decide, _, rfl, ?_, ?_, ?_, ?_⟩ <;> decide

/-! ### Coordinator lemmas -/

/-- A successful domain transition yields exactly the record update the
source performs: new status, refreshed timestamp, version + 1. -/
theorem updateStatus_ok_result (o : Order) (ns : OrderStatus) (now : Nat)
    (h : (o.UpdateStatus ns now).1 = .ok ()) :
    (o.UpdateStatus ns now).2 =
      { o with Status := ns, UpdatedAt := now, Version := o.Version + 1 } := by
  unfold Order.UpdateStatus at h ⊢
  split_ifs at h ⊢
  simp_all

/-- C3: in the coordinator's transition-status operation, any failure before
the store update succeeds (find fails, the aggregate rejects the
transition, or the store update fails) aborts the operation with that
failure and performs no cache invalidation and no event publication; once
the store update has succeeded, the outcome of cache invalidation and
publication (both arbitrary here) cannot change the success result: the
updated order is returned. -/
theorem updateOrderStatus_commit_point (c : Collab) (now : Nat) (eid : String)
    (id : String) (ns : OrderStatus) :
    (∀ e, c.findByID id = .error e →
      ((UpdateOrderStatus c now eid id ns).1 = .error (svcOfRepo e)
       ∧ storeUpdates (UpdateOrderStatus c now eid id ns).2 = []
       ∧ invalidations (UpdateOrderStatus c now eid id ns).2 = []
       ∧ publishedEvents (UpdateOrderStatus c now eid id ns).2 = []))
    ∧ (∀ ord de, c.findByID id = .ok ord → (ord.UpdateStatus ns now).1 = .error de →
      ((UpdateOrderStatus c now eid id ns).1 =
          .error { Status := 400, Message := "Invalid status transition",
                   Cause := de.message }
       ∧ storeUpdates (UpdateOrderStatus c now eid id ns).2 = []
       ∧ invalidations (UpdateOrderStatus c now eid id ns).2 = []
       ∧ publishedEvents (UpdateOrderStatus c now eid id ns).2 = []))
    ∧ (∀ ord re, c.findByID id = .ok ord → (ord.UpdateStatus ns now).1 = .ok () →
      c.update (ord.UpdateStatus ns now).2 = some re →
      ((UpdateOrderStatus c now eid id ns).1 = .error (svcOfRepo re)
       ∧ invalidations (UpdateOrderStatus c now eid id ns).2 = []
       ∧ publishedEvents (UpdateOrderStatus c now eid id ns).2 = []))
    ∧ (∀ ord, c.findByID id = .ok ord → (ord.UpdateStatus ns now).1 = .ok () →
      c.update (ord.UpdateStatus ns now).2 = none →
      (UpdateOrderStatus c now eid id ns).1 = .ok (ord.UpdateStatus ns now).2) := by
  refine ⟨?_, ?_, ?_, ?_⟩
  · intro e hfind
    simp [UpdateOrderStatus, hfind, storeUpdates, invalidations, publishedEvents]
  · intro ord de hfind hdom
    simp [UpdateOrderStatus, hfind, hdom, storeUpdates, invalidations, publishedEvents]
  · intro ord re hfind hdom hupd
    simp [UpdateOrderStatus, hfind, hdom, hupd, invalidations, publishedEvents]
  · intro ord hfind hdom hupd
    simp [UpdateOrderStatus, hfind, hdom, hupd]

/-- Witness for C3: the four branch conclusions at concrete collaborators
(Scenario E is the third conjunct: a VersionConflict from the store is
returned as-is, with no invalidation and no event). -/
theorem updateOrderStatus_commit_point_witness :
    ((UpdateOrderStatus collabFindFail 9 "e1" "o1" StatusInProgress).1 =
        .error (svcOfRepo errNF)
     ∧ publishedEvents (UpdateOrderStatus collabFindFail 9 "e1" "o1" StatusInProgress).2 = [])
    ∧ ((UpdateOrderStatus collabA 9 "e1" "o1" StatusDelivered).1 =
        .error { Status := 400, Message := "Invalid status transition",
                 Cause := DomainErr.invalidStatusTransition.message }
     ∧ storeUpdates (UpdateOrderStatus collabA 9 "e1" "o1" StatusDelivered).2 = [])
    ∧ ((UpdateOrderStatus collabUpdateConflict 9 "e1" "o1" StatusInProgress).1 =
        .error (svcOfRepo errVC)
     ∧ invalidations (UpdateOrderStatus collabUpdateConflict 9 "e1" "o1" StatusInProgress).2 = []
     ∧ publishedEvents
         (UpdateOrderStatus collabUpdateConflict 9 "e1" "o1" StatusInProgress).2 = [])
    ∧ (UpdateOrderStatus collabSideFail 9 "e1" "o1" StatusInProgress).1 =
        .ok (ordBase.UpdateStatus StatusInProgress 9).2 := by
  have h₁ := (updateOrderStatus_commit_point collabFindFail 9 "e1" "o1" StatusInProgress).1
    errNF rfl
  have h₂ := (updateOrderStatus_commit_point collabA 9 "e1" "o1" StatusDelivered).2.1
    ordBase .invalidStatusTransition rfl rfl
  have h₃ := (updateOrderStatus_commit_point collabUpdateConflict 9 "e1" "o1"
    StatusInProgress).2.2.1 ordBase errVC rfl rfl rfl
  have h₄ := (updateOrderStatus_commit_point collabSideFail 9 "e1" "o1"
    StatusInProgress).2.2.2 ordBase rfl rfl rfl
  exact ⟨⟨h₁.1, h₁.2.2.2⟩, ⟨h₂.1, h₂.2.1⟩, ⟨h₃.1, h₃.2.1, h₃.2.2⟩, h₄⟩

/-- C8: in the coordinator's read-by-ID operation a cache hit is returned
immediately with the store never consulted; a miss or a cache failure falls
through to the store, and on store success the order is written back to the
cache best-effort (the write outcome, arbitrary here, is ignored) and
returned. -/
theorem getOrderByID_cache_aside (c : Collab) (id : String) :
    (∀ o, c.cacheGet id = .hit o →
      ((GetOrderByID c id).1 = .ok o ∧ storeFinds (GetOrderByID c id).2 = []))
    ∧ ((c.cacheGet id = .miss ∨ ∃ e, c.cacheGet id = .fail e) →
      (storeFinds (GetOrderByID c id).2 = [id]
       ∧ ∀ o, c.findByID id = .ok o →
          ((GetOrderByID c id).1 = .ok o ∧ cacheSets (GetOrderByID c id).2 = [o]))) := by
  constructor
  · intro o hhit
    simp [GetOrderByID, hhit, storeFinds]
  · intro hmiss
    have hfall : ∀ o, c.findByID id = .ok o →
        ((GetOrderByID c id).1 = .ok o ∧ cacheSets (GetOrderByID c id).2 = [o]) := by
      intro o hfind
      rcases hmiss with hm | ⟨e, hm⟩ <;>
        simp [GetOrderByID, hm, hfind, cacheSets]
    refine ⟨?_, hfall⟩
    rcases hmiss with hm | ⟨e, hm⟩ <;>
      rcases hfind : c.findByID id with e' | o <;>
        simp [GetOrderByID, hm, hfind, storeFinds]

/-- Witness for C8: a hit served from cache with zero store reads, a miss
that falls through, and a cache failure (with a failing write-back) that
still returns the store's order. -/
theorem getOrderByID_cache_aside_witness :
    ((GetOrderByID collabCacheHit "o1").1 = .ok ordBase
     ∧ storeFinds (GetOrderByID collabCacheHit "o1").2 = [])
    ∧ (storeFinds (GetOrderByID collabA "o1").2 = ["o1"]
     ∧ (GetOrderByID collabA "o1").1 = .ok ordBase)
    ∧ ((GetOrderByID collabCacheFail "o1").1 = .ok ordBase
     ∧ cacheSets (GetOrderByID collabCacheFail "o1").2 = [ordBase]) := by
  have h₁ := (getOrderByID_cache_aside collabCacheHit "o1").1 ordBase rfl
  have h₂ := (getOrderByID_cache_aside collabA "o1").2 (Or.inl rfl)
  have h₃ := ((getOrderByID_cache_aside collabCacheFail "o1").2
    (Or.inr ⟨errNF, rfl⟩)).2 ordBase rfl
  exact ⟨h₁, ⟨h₂.1, (h₂.2 ordBase rfl).1⟩, h₃⟩

/-- C9: every accepted transition publishes exactly one event, of type
ORDER_STATUS_CHANGED, carrying the transitioned order's identifier and
customer identifier, the pre-transition status as oldStatus and the target
as newStatus; the Kafka message built for it uses the order identifier as
its partition key. -/
theorem updateOrderStatus_event_shape (c : Collab) (now : Nat) (eid : String)
    (id : String) (ns : OrderStatus) (ord : Order)
    (hfind : c.findByID id = .ok ord)
    (hdom : (ord.UpdateStatus ns now).1 = .ok ())
    (hupd : c.update (ord.UpdateStatus ns now).2 = none) :
    ∃ ev, publishedEvents (UpdateOrderStatus c now eid id ns).2 = [ev]
      ∧ ev.EventType = "ORDER_STATUS_CHANGED"
      ∧ ev.OrderID = (ord.UpdateStatus ns now).2.ID
      ∧ ev.OrderID = ord.ID
      ∧ ev.CustomerID = ord.CustomerID
      ∧ ev.OldStatus = ord.Status
      ∧ ev.NewStatus = ns
      ∧ (kafkaMessageFor ev).key = ord.ID := by
  have hres := updateStatus_ok_result ord ns now hdom
  refine ⟨NewOrderStatusChangedEvent eid now (ord.UpdateStatus ns now).2.ID
    (ord.UpdateStatus ns now).2.CustomerID ord.Status ns, ?_, rfl, rfl, ?_, ?_, rfl, rfl, ?_⟩
  · simp [UpdateOrderStatus, hfind, hdom, hupd, publishedEvents]
  · simp [hres, NewOrderStatusChangedEvent]
  · simp [hres, NewOrderStatusChangedEvent]
  · simp [kafkaMessageFor, hres, NewOrderStatusChangedEvent]

/-- Witness for C9: the NEW → IN_PROGRESS transition of `ordBase` under
all-successful collaborators. -/
theorem updateOrderStatus_event_shape_witness :
    ∃ ev, publishedEvents (UpdateOrderStatus collabA 9 "e1" "o1" StatusInProgress).2 = [ev]
      ∧ ev.EventType = "ORDER_STATUS_CHANGED"
      ∧ ev.OrderID = (ordBase.UpdateStatus StatusInProgress 9).2.ID
      ∧ ev.OrderID = ordBase.ID
      ∧ ev.CustomerID = ordBase.CustomerID
      ∧ ev.OldStatus = ordBase.Status
      ∧ ev.NewStatus = StatusInProgress
      ∧ (kafkaMessageFor ev).key = ordBase.ID :=
  updateOrderStatus_event_shape collabA 9 "e1" "o1" StatusInProgress ordBase rfl rfl rfl

end OrderMS
